import Mathlib

/-!
Verification of the JSON-extraction-and-validation layer of the
grafotest-api Cloudflare worker (src/index.ts).

The worker serves two POST endpoints, /analyze and /analyze-contextual.
Each one calls an upstream generative model, joins the text fragments of
the first candidate with newlines, and then recovers a JSON value from
the joined text by slicing from the first occurrence of the character
0x7b to the last occurrence of 0x7d and running JSON.parse on that slice.
Failures are absorbed by a catch block that produces a fixed fallback
response with status 500.

Strings from the TypeScript source are modelled as `List Char`; the
builtin JSON.parse is modelled by `parseJsonText`, a fuel-based
recursive-descent parser for the JSON grammar (ECMA-404): numbers are
kept as their source lexemes, string escapes are decoded.
-/

namespace Grafotest

/-- A JSON value, as produced by the modelled JSON.parse.  Numbers keep
their source lexeme (sign, integer, fraction and exponent characters);
object fields keep source order. -/
inductive Json where
  | null : Json
  | bool (b : Bool) : Json
  | num (lit : List Char) : Json
  | str (s : List Char) : Json
  | arr (xs : List Json) : Json
  | obj (fields : List (List Char × Json)) : Json

/-- JSON whitespace: space, tab, line feed, carriage return. -/
def isWs (c : Char) : Bool :=
  c = ' ' || c = '\t' || c = '\n' || c = '\r'

/-- Drop leading JSON whitespace. -/
def skipWs : List Char → List Char
  | [] => []
  | c :: rest => if isWs c then skipWs rest else c :: rest

/-- ASCII decimal digit test. -/
def isDigit (c : Char) : Bool :=
  '0' ≤ c && c ≤ '9'

/-- Value of a hexadecimal digit, if the character is one. -/
def hexVal (c : Char) : Option Nat :=
  if '0' ≤ c && c ≤ '9' then some (c.toNat - 48)
  else if 'a' ≤ c && c ≤ 'f' then some (c.toNat - 87)
  else if 'A' ≤ c && c ≤ 'F' then some (c.toNat - 55)
  else none

/-- Decoding of a single-character JSON string escape. -/
def escChar (e : Char) : Option Char :=
  if e = '"' then some '"'
  else if e = '\\' then some '\\'
  else if e = '/' then some '/'
  else if e = 'b' then some (Char.ofNat 8)
  else if e = 'f' then some (Char.ofNat 12)
  else if e = 'n' then some '\n'
  else if e = 'r' then some '\r'
  else if e = 't' then some '\t'
  else none

/-- Parse the body of a JSON string, starting after the opening quote.
Returns the decoded characters and the input remaining after the
closing quote. -/
def parseStrBody : List Char → Option (List Char × List Char)
  | [] => none
  | '"' :: rest => some ([], rest)
  | '\\' :: 'u' :: a :: b :: c :: d :: rest => do
      let ha ← hexVal a
      let hb ← hexVal b
      let hc ← hexVal c
      let hd ← hexVal d
      let (tail, r) ← parseStrBody rest
      pure (Char.ofNat (((ha * 16 + hb) * 16 + hc) * 16 + hd) :: tail, r)
  | '\\' :: e :: rest => do
      let ec ← escChar e
      let (tail, r) ← parseStrBody rest
      pure (ec :: tail, r)
  | c :: rest =>
      if c.toNat < 32 then none
      else do
        let (tail, r) ← parseStrBody rest
        pure (c :: tail, r)

/-- Longest digit prefix and the rest. -/
def spanDigits (s : List Char) : List Char × List Char :=
  (s.takeWhile isDigit, s.dropWhile isDigit)

/-- Optional fraction part of a JSON number (dot plus digits). -/
def parseFrac : List Char → Option (List Char × List Char)
  | '.' :: rest =>
      let (ds, r) := spanDigits rest
      if ds.isEmpty then none else some ('.' :: ds, r)
  | s => some ([], s)

/-- Optional exponent part of a JSON number. -/
def parseExp : List Char → Option (List Char × List Char)
  | [] => some ([], [])
  | c :: rest =>
      if c = 'e' || c = 'E' then
        let (sgn, r1) :=
          match rest with
          | '+' :: t => (['+'], t)
          | '-' :: t => (['-'], t)
          | t => (([] : List Char), t)
        let (ds, r2) := spanDigits r1
        if ds.isEmpty then none else some (c :: (sgn ++ ds), r2)
      else some ([], c :: rest)

/-- Parse a JSON number starting at its first character.  Returns the
number (as its lexeme) and the remaining input. -/
def parseNumber (s : List Char) : Option (Json × List Char) :=
  let (negChars, s1) :=
    match s with
    | '-' :: r => ((['-'] : List Char), r)
    | _ => (([] : List Char), s)
  match s1 with
  | [] => none
  | c :: r =>
      if isDigit c then
        let (ip, r2) :=
          if c = '0' then ((['0'] : List Char), r)
          else
            let (ds, rr) := spanDigits r
            (c :: ds, rr)
        match parseFrac r2 with
        | none => none
        | some (fp, r3) =>
          match parseExp r3 with
          | none => none
          | some (ep, r4) => some (.num (negChars ++ ip ++ fp ++ ep), r4)
      else none

mutual

/-- Parse one JSON value; the input must start at the value's first
character (no leading whitespace).  Fuel bounds recursion depth. -/
def parseVal : Nat → List Char → Option (Json × List Char)
  | 0, _ => none
  | _ + 1, [] => none
  | f + 1, c :: rest =>
      if c = '{' then
        match skipWs rest with
        | '}' :: r2 => some (.obj [], r2)
        | r2 =>
          match parseMembers f r2 with
          | some (ms, r3) => some (.obj ms, r3)
          | none => none
      else if c = '[' then
        match skipWs rest with
        | ']' :: r2 => some (.arr [], r2)
        | r2 =>
          match parseElems f r2 with
          | some (xs, r3) => some (.arr xs, r3)
          | none => none
      else if c = '"' then
        match parseStrBody rest with
        | some (cs, r2) => some (.str cs, r2)
        | none => none
      else if c = 't' then
        match rest with
        | 'r' :: 'u' :: 'e' :: r2 => some (.bool true, r2)
        | _ => none
      else if c = 'f' then
        match rest with
        | 'a' :: 'l' :: 's' :: 'e' :: r2 => some (.bool false, r2)
        | _ => none
      else if c = 'n' then
        match rest with
        | 'u' :: 'l' :: 'l' :: r2 => some (.null, r2)
        | _ => none
      else parseNumber (c :: rest)

/-- Parse the members of a JSON object, starting at the first key's
opening quote (whitespace already skipped); consumes the closing brace. -/
def parseMembers : Nat → List Char → Option (List (List Char × Json) × List Char)
  | 0, _ => none
  | f + 1, '"' :: rest =>
      match parseStrBody rest with
      | none => none
      | some (key, r1) =>
        match skipWs r1 with
        | ':' :: r2 =>
          match parseVal f (skipWs r2) with
          | none => none
          | some (v, r3) =>
            match skipWs r3 with
            | ',' :: r4 =>
              match parseMembers f (skipWs r4) with
              | some (ms, r5) => some ((key, v) :: ms, r5)
              | none => none
            | '}' :: r4 => some ([(key, v)], r4)
            | _ => none
        | _ => none
  | _ + 1, _ => none

/-- Parse the elements of a JSON array, starting at the first element
(whitespace already skipped); consumes the closing bracket. -/
def parseElems : Nat → List Char → Option (List Json × List Char)
  | 0, _ => none
  | f + 1, s =>
      match parseVal f s with
      | none => none
      | some (v, r1) =>
        match skipWs r1 with
        | ',' :: r2 =>
          match parseElems f (skipWs r2) with
          | some (xs, r3) => some (v :: xs, r3)
          | none => none
        | ']' :: r2 => some ([v], r2)
        | _ => none

end

/-- Model of the JavaScript builtin JSON.parse: parse a complete JSON
text (a single value with optional surrounding whitespace).  The fuel
2 * length + 2 exceeds the recursion depth any input can force, since
every two fuel steps consume at least one input character. -/
def parseJsonText (s : List Char) : Option Json :=
  match parseVal (2 * s.length + 2) (skipWs s) with
  | some (v, rest) => if skipWs rest = [] then some v else none
  | none => none

/-- Index of the first occurrence of a character, as in JavaScript
String.prototype.indexOf (none models the return value -1). -/
def firstIdx (c : Char) : List Char → Option Nat
  | [] => none
  | x :: xs => if x = c then some 0 else (firstIdx c xs).map (· + 1)

/-- Index of the last occurrence of a character, as in JavaScript
String.prototype.lastIndexOf (none models the return value -1). -/
def lastIdx (c : Char) : List Char → Option Nat
  | [] => none
  | x :: xs =>
    match lastIdx c xs with
    | some i => some (i + 1)
    | none => if x = c then some 0 else none

/-- The slice rawText.slice(st, en + 1) of the source: characters from
index st up to and including index en (empty when en + 1 ≤ st, matching
the JavaScript String.prototype.slice clamp). -/
def braceSlice (s : List Char) (st en : Nat) : List Char :=
  (s.drop st).take (en + 1 - st)

/-- The substring of the input from its first opening brace through its
last closing brace, when both characters occur. -/
def braceSpan (s : List Char) : Option (List Char) :=
  match firstIdx '{' s, lastIdx '}' s with
  | some st, some en => some (braceSlice s st en)
  | _, _ => none

/-- Outcome of the extraction logic, with the typed failure reasons of
the specification: the source throws Invalid JSON output when a brace
is missing (noJsonFound) and lets JSON.parse throw on a bad slice
(parseError); both are converted by the enclosing catch block. -/
inductive ExtractResult where
  | ok (v : Json) : ExtractResult
  | noJsonFound : ExtractResult
  | parseError : ExtractResult

/-- The extraction logic shared by both handlers (source lines 147-155
and 270-278): find the first opening brace and the last closing brace,
fail when either is absent, otherwise JSON.parse the inclusive slice
between them. -/
def extract (s : List Char) : ExtractResult :=
  match firstIdx '{' s, lastIdx '}' s with
  | some st, some en =>
    match parseJsonText (braceSlice s st en) with
    | some v => .ok v
    | none => .parseError
  | _, _ => .noJsonFound

/-- One part of an upstream candidate's content; its text field. -/
structure Part where
  text : List Char

/-- Content of an upstream candidate: an optional parts array
(optional chaining in the source treats a missing array as absent). -/
structure Content where
  parts : Option (List Part)

/-- One candidate of the upstream response body. -/
structure Candidate where
  content : Option Content

/-- The upstream response body: an optional candidates array. -/
structure GeminiData where
  candidates : Option (List Candidate)

/-- Join a list of fragments with a single newline between consecutive
fragments, as Array.prototype.join of the source does. -/
def joinNewline : List (List Char) → List Char
  | [] => []
  | [x] => x
  | x :: y :: rest => x ++ '\n' :: joinNewline (y :: rest)

/-- The assembled raw text of the source: the optional chain
data.candidates[0].content.parts mapped to the text fields and joined
with a newline; any absent link yields the empty string. -/
def rawTextOf (d : GeminiData) : List Char :=
  match d.candidates with
  | some (c :: _) =>
    match c.content with
    | some ct =>
      match ct.parts with
      | some ps => joinNewline (ps.map Part.text)
      | none => []
    | none => []
  | _ => []

/-- Result of the upstream generation call as far as the handlers can
observe it: a non-ok HTTP response with its status and error text, or
an ok response with a parsed body. -/
inductive UpstreamResult where
  | httpError (status : Nat) (errText : List Char) : UpstreamResult
  | success (data : GeminiData) : UpstreamResult

/-- An HTTP response of the worker: status, optional JSON body (none
for the body-less preflight response) and headers. -/
structure Resp where
  status : Nat
  body : Option Json
  headers : List (String × String)

/-- The header set attached to every response of the worker. -/
def corsHeaders : List (String × String) :=
  [("Content-Type", "application/json"),
   ("Access-Control-Allow-Origin", "*"),
   ("Access-Control-Allow-Methods", "GET, POST, OPTIONS"),
   ("Access-Control-Allow-Headers", "Content-Type")]

/-- Request body of the /analyze endpoint; fields may be absent. -/
structure AnalyzeBody where
  imageBase64 : Option String
  language : Option String

/-- Request body of the /analyze-contextual endpoint. -/
structure ContextualBody where
  imageBase64 : Option String
  context : Option String
  language : Option String

/-- JavaScript falsiness of an optional string field: absent or empty. -/
def falsy : Option String → Bool
  | none => true
  | some s => s = ""

/-- The fixed fallback response of the /analyze catch block. -/
def analyzeFallback : Resp :=
  ⟨500, some (.obj [("error".toList, .str ("AI analysis failed".toList))]),
   corsHeaders⟩

/-- The fixed degraded-shape fallback response of the /analyze-contextual
catch block. -/
def contextualFallback : Resp :=
  ⟨500,
   some (.obj
     [("suitabilityScore".toList, .num ("0".toList)),
      ("relevanceExplanation".toList,
       .str ("Terjadi kegagalan analisis kontekstual.".toList)),
      ("actionableAdvice".toList, .arr []),
      ("specificRisks".toList, .arr [])]),
   corsHeaders⟩

/-- The /analyze handler.  A body of none models a request whose JSON
body failed to parse, which the catch block absorbs.  The upstream
result is a parameter: a branch that returns without inspecting it
models a control path on which no upstream call is made. -/
def handleAnalyze (body : Option AnalyzeBody) (hasKey : Bool)
    (up : UpstreamResult) : Resp :=
  match body with
  | none => analyzeFallback
  | some b =>
    if falsy b.imageBase64 then
      ⟨400, some (.obj [("error".toList, .str ("Image is required".toList))]),
       corsHeaders⟩
    else if !hasKey then
      ⟨500,
       some (.obj [("error".toList, .str ("Gemini API key not set".toList))]),
       corsHeaders⟩
    else
      match up with
      | .httpError _ _ => analyzeFallback
      | .success d =>
        if rawTextOf d = [] then analyzeFallback
        else
          match extract (rawTextOf d) with
          | .ok v => ⟨200, some v, corsHeaders⟩
          | _ => analyzeFallback

/-- The /analyze-contextual handler.  The source does not check the API
key on this path, so the handler has no hasKey parameter. -/
def handleContextual (body : Option ContextualBody)
    (up : UpstreamResult) : Resp :=
  match body with
  | none => contextualFallback
  | some b =>
    if falsy b.imageBase64 || falsy b.context then
      ⟨400,
       some (.obj [("error".toList,
                    .str ("imageBase64 dan context wajib diisi".toList))]),
       corsHeaders⟩
    else
      match up with
      | .httpError _ _ => contextualFallback
      | .success d =>
        if rawTextOf d = [] then contextualFallback
        else
          match extract (rawTextOf d) with
          | .ok v => ⟨200, some v, corsHeaders⟩
          | _ => contextualFallback

/-- The routing cases of the worker's fetch entry point: CORS
preflight, health check, the two POST endpoints, and the 404 fallback. -/
inductive RequestCase where
  | preflight : RequestCase
  | health : RequestCase
  | analyze (body : Option AnalyzeBody) (hasKey : Bool)
      (up : UpstreamResult) : RequestCase
  | contextual (body : Option ContextualBody)
      (up : UpstreamResult) : RequestCase
  | notFound : RequestCase

/-- The worker's fetch entry point, one branch per routing case. -/
def workerFetch : RequestCase → Resp
  | .preflight => ⟨200, none, corsHeaders⟩
  | .health =>
      ⟨200,
       some (.obj [("status".toList, .str ("ok".toList)),
                   ("service".toList, .str ("grafotest-api".toList))]),
       corsHeaders⟩
  | .analyze b k u => handleAnalyze b k u
  | .contextual b u => handleContextual b u
  | .notFound =>
      ⟨404, some (.obj [("error".toList, .str ("Not Found".toList))]),
       corsHeaders⟩

/-- An extraction outcome that is not a success. -/
def extractionFailed (s : List Char) : Prop :=
  ∀ v : Json, extract s ≠ ExtractResult.ok v

/-- A failing run as seen from a handler's catch block: the upstream
call returned a non-ok status, or it succeeded but yielded empty raw
text, or extraction on the raw text failed. -/
def upstreamOrExtractionFailure : UpstreamResult → Prop
  | .httpError _ _ => True
  | .success d => rawTextOf d = [] ∨ extractionFailed (rawTextOf d)

theorem firstIdx_eq_none (c : Char) (s : List Char) :
    firstIdx c s = none ↔ c ∉ s := by
  induction s with
  | nil => simp [firstIdx]
  | cons x xs ih =>
    by_cases h : x = c
    · subst h
      simp [firstIdx]
    · constructor
      · intro hn hmem
        rw [firstIdx, if_neg h, Option.map_eq_none', ih] at hn
        rcases List.mem_cons.mp hmem with hc | hc
        · exact h hc.symm
        · exact hn hc
      · intro hmem
        rw [firstIdx, if_neg h, Option.map_eq_none', ih]
        exact fun hc => hmem (List.mem_cons_of_mem _ hc)

theorem lastIdx_eq_none (c : Char) (s : List Char) :
    lastIdx c s = none ↔ c ∉ s := by
  induction s with
  | nil => simp [lastIdx]
  | cons x xs ih =>
    cases h : lastIdx c xs with
    | some i =>
      have hmem : c ∈ xs := by
        by_contra hc
        rw [← ih, h] at hc
        exact Option.noConfusion hc
      simp [lastIdx, h, hmem]
    | none =>
      have hmem : c ∉ xs := ih.mp h
      by_cases hx : x = c
      · subst hx
        simp [lastIdx, h]
      · have hcx : ¬ c = x := fun hc => hx hc.symm
        simp [lastIdx, h, hx, hmem, hcx]

theorem firstIdx_of_head (c : Char) (s : List Char) (h : s.head? = some c) :
    firstIdx c s = some 0 := by
  cases s with
  | nil => exact Option.noConfusion h
  | cons x xs =>
    have hx : x = c := Option.some.inj h
    subst hx
    simp [firstIdx]

theorem lastIdx_of_getLast (c : Char) (s : List Char)
    (h : s.getLast? = some c) : lastIdx c s = some (s.length - 1) := by
  induction s with
  | nil => exact Option.noConfusion h
  | cons x xs ih =>
    cases xs with
    | nil =>
      have hx : x = c := by
        simpa using h
      subst hx
      simp [lastIdx]
    | cons y ys =>
      rw [List.getLast?_cons_cons] at h
      have h2 := ih h
      have hstep : lastIdx c (x :: y :: ys) =
          match lastIdx c (y :: ys) with
          | some i => some (i + 1)
          | none => if x = c then some 0 else none := rfl
      rw [hstep, h2]
      show some ((y :: ys).length - 1 + 1) = some ((x :: y :: ys).length - 1)
      congr 1

theorem braceSlice_zero_last (s : List Char) (h : s ≠ []) :
    braceSlice s 0 (s.length - 1) = s := by
  unfold braceSlice
  rw [List.drop_zero]
  have hl : s.length - 1 + 1 - 0 = s.length := by
    cases s with
    | nil => exact absurd rfl h
    | cons x xs => simp
  rw [hl, List.take_length]

theorem braceSpan_some_elim (s sub : List Char) (h : braceSpan s = some sub) :
    ∃ st en, firstIdx '{' s = some st ∧ lastIdx '}' s = some en ∧
      braceSlice s st en = sub := by
  unfold braceSpan at h
  cases hf : firstIdx '{' s with
  | none =>
    rw [hf] at h
    exact Option.noConfusion h
  | some st =>
    cases hl : lastIdx '}' s with
    | none =>
      rw [hf, hl] at h
      exact Option.noConfusion h
    | some en =>
      rw [hf, hl] at h
      exact ⟨st, en, rfl, rfl, Option.some.inj h⟩

/-- C1 counterexample: the claim says every input that is valid JSON
outright is parsed by a full-string fast path, including values with no
opening brace such as bare numbers.  The source has no such fast path:
the input 123 is valid JSON, yet extraction fails with no-json-found
instead of returning the parsed number. -/
theorem extract_full_parse_cex :
    parseJsonText ("123".toList) = some (Json.num ("123".toList)) ∧
    extract ("123".toList) = ExtractResult.noJsonFound ∧
    ∀ v : Json, ExtractResult.noJsonFound ≠ ExtractResult.ok v :=
  ⟨rfl, rfl, fun _ h => ExtractResult.noConfusion h⟩

/-- C1 (amended): for every input that is valid JSON outright and that
begins with an opening brace and ends with a closing brace (in
particular any valid JSON object text without surrounding whitespace),
extract returns the exact parsed equivalent of the whole string.  The
unamended fast-path behaviour on brace-free valid JSON does not hold;
see the counterexample. -/
theorem extract_whole_valid_json (s : List Char) (v : Json)
    (hp : parseJsonText s = some v) (hh : s.head? = some '{')
    (hl : s.getLast? = some '}') : extract s = ExtractResult.ok v := by
  have hne : s ≠ [] := by
    cases s with
    | nil => exact Option.noConfusion hh
    | cons x xs => exact List.cons_ne_nil x xs
  have h1 := firstIdx_of_head '{' s hh
  have h2 := lastIdx_of_getLast '}' s hl
  have key : extract s =
      match parseJsonText (braceSlice s 0 (s.length - 1)) with
      | some w => ExtractResult.ok w
      | none => ExtractResult.parseError := by
    unfold extract
    rw [h1, h2]
  rw [braceSlice_zero_last s hne, hp] at key
  exact key

/-- C1 witness: a concrete valid JSON object is returned parsed. -/
theorem extract_whole_valid_json_witness :
    extract ("\x7b\"a\":1\x7d".toList) =
      ExtractResult.ok (Json.obj [("a".toList, Json.num ("1".toList))]) :=
  extract_whole_valid_json _ _ rfl rfl rfl

/-- C2: whenever extract succeeds, the value was produced by parsing
exactly the substring of the input from its first opening brace through
its last closing brace (which also covers the claim's alternative of a
full-string parse: no other substring is ever parsed). -/
theorem extract_ok_from_brace_slice (s : List Char) (v : Json)
    (h : extract s = ExtractResult.ok v) :
    ∃ st en, firstIdx '{' s = some st ∧ lastIdx '}' s = some en ∧
      parseJsonText (braceSlice s st en) = some v := by
  unfold extract at h
  cases h1 : firstIdx '{' s with
  | none =>
    rw [h1] at h
    exact ExtractResult.noConfusion h
  | some st =>
    rw [h1] at h
    cases h2 : lastIdx '}' s with
    | none =>
      rw [h2] at h
      exact ExtractResult.noConfusion h
    | some en =>
      rw [h2] at h
      have h' : (match parseJsonText (braceSlice s st en) with
          | some w => ExtractResult.ok w
          | none => ExtractResult.parseError) = ExtractResult.ok v := h
      cases hp : parseJsonText (braceSlice s st en) with
      | none =>
        rw [hp] at h'
        exact ExtractResult.noConfusion h'
      | some w =>
        rw [hp] at h'
        have hw : w = v := ExtractResult.ok.inj h'
        subst hw
        exact ⟨st, en, rfl, rfl, hp⟩

/-- C2 witness: the theorem applied to a concrete successful
extraction from prose-wrapped input. -/
theorem extract_ok_from_brace_slice_witness :
    ∃ st en,
      firstIdx '{' ("see: \x7b\"k\":true\x7d done".toList) = some st ∧
      lastIdx '}' ("see: \x7b\"k\":true\x7d done".toList) = some en ∧
      parseJsonText
        (braceSlice ("see: \x7b\"k\":true\x7d done".toList) st en) =
        some (Json.obj [("k".toList, Json.bool true)]) :=
  extract_ok_from_brace_slice _ _ rfl

/-- C4: for every input in which the opening brace does not occur or
the closing brace does not occur, including the empty string, extract
fails with no-json-found. -/
theorem extract_missing_brace (s : List Char)
    (h : '{' ∉ s ∨ '}' ∉ s) : extract s = ExtractResult.noJsonFound := by
  unfold extract
  rcases h with h1 | h2
  · rw [(firstIdx_eq_none '{' s).mpr h1]
  · rw [(lastIdx_eq_none '}' s).mpr h2]
    cases firstIdx '{' s <;> rfl

/-- C4 witness: a concrete brace-free input and the empty string both
fail with no-json-found. -/
theorem extract_missing_brace_witness :
    extract ("no json here".toList) = ExtractResult.noJsonFound ∧
    extract [] = ExtractResult.noJsonFound :=
  ⟨extract_missing_brace _ (Or.inl (by decide)),
   extract_missing_brace [] (Or.inl (by decide))⟩

/-- C5: for every input that contains both braces but whose
first-brace-to-last-brace substring is not valid JSON, and which is not
itself valid JSON as a whole, extract fails with parse-error. -/
theorem extract_bad_slice_parse_error (s sub : List Char)
    (hspan : braceSpan s = some sub)
    (hbad : parseJsonText sub = none)
    (_hwhole : parseJsonText s = none) :
    extract s = ExtractResult.parseError := by
  obtain ⟨st, en, hf, hl, hsl⟩ := braceSpan_some_elim s sub hspan
  have key : extract s =
      match parseJsonText (braceSlice s st en) with
      | some w => ExtractResult.ok w
      | none => ExtractResult.parseError := by
    unfold extract
    rw [hf, hl]
  rw [hsl, hbad] at key
  exact key

/-- C5 witness: the spec's concrete example input fails with
parse-error. -/
theorem extract_bad_slice_parse_error_witness :
    extract ("\x7bnot valid json\x7d".toList) = ExtractResult.parseError :=
  extract_bad_slice_parse_error _ ("\x7bnot valid json\x7d".toList)
    rfl rfl rfl

/-- C6: the prose-wrapped payload from the spec is extracted to the
JSON object with field a mapped to the number 1. -/
theorem extract_prose_wrapped :
    extract
      ("Sure! Here is the result:\n\x7b\"a\":1\x7d\nHope that helps.".toList) =
      ExtractResult.ok (Json.obj [("a".toList, Json.num ("1".toList))]) :=
  rfl

/-- C8: extract is deterministic and side-effect-free.  In this
embedding it is a pure function of the input string alone (it takes no
state and the model has none), so two invocations on equal inputs yield
structurally equal results. -/
theorem extract_deterministic (s t : List Char) (h : s = t) :
    extract s = extract t := by
  rw [h]

/-- C8 witness: two invocations on the same concrete input agree. -/
theorem extract_deterministic_witness :
    extract ("\x7b\"a\":1\x7d".toList) = extract ("\x7b\"a\":1\x7d".toList) :=
  extract_deterministic _ _ rfl

theorem joinNewline_eq_intercalate (ps : List (List Char)) :
    joinNewline ps = List.intercalate ['\n'] ps := by
  induction ps with
  | nil => simp [joinNewline, List.intercalate]
  | cons x xs ih =>
    cases xs with
    | nil => simp [joinNewline, List.intercalate]
    | cons y ys =>
      rw [joinNewline, ih]
      simp [List.intercalate]

/-- C7: the assembled raw text equals the text fragments of the first
candidate joined with a single newline between consecutive fragments
(stated against the library intercalation); an empty fragment list, an
absent parts array, an absent content, an absent candidates array and
an empty candidates array all yield the empty string. -/
theorem rawText_assembly (d : GeminiData) (c : Candidate)
    (cs : List Candidate) (ct : Content) (ps : List Part)
    (h1 : d.candidates = some (c :: cs)) (h2 : c.content = some ct)
    (h3 : ct.parts = some ps) :
    rawTextOf d = List.intercalate ['\n'] (ps.map Part.text) ∧
    (ps = [] → rawTextOf d = []) ∧
    (∀ cs2 : List Candidate,
      rawTextOf ⟨some (⟨some ⟨none⟩⟩ :: cs2)⟩ = []) ∧
    (∀ cs2 : List Candidate, rawTextOf ⟨some (⟨none⟩ :: cs2)⟩ = []) ∧
    rawTextOf ⟨some []⟩ = [] ∧ rawTextOf ⟨none⟩ = [] := by
  have hmain : rawTextOf d = joinNewline (ps.map Part.text) := by
    simp only [rawTextOf, h1, h2, h3]
  refine ⟨?_, ?_, fun _ => rfl, fun _ => rfl, rfl, rfl⟩
  · rw [hmain, joinNewline_eq_intercalate]
  · intro hps
    subst hps
    rw [hmain]
    rfl

/-- C7 witness: the theorem applied to the spec's end-to-end upstream
response of two fragments. -/
theorem rawText_assembly_witness :
    rawTextOf
        ⟨some [⟨some ⟨some [⟨"\x7b\"suitabilityScore\": 72, ".toList⟩,
          ⟨"\"relevanceExplanation\": \"ok\"\x7d".toList⟩]⟩⟩]⟩ =
      List.intercalate ['\n']
        ([(⟨"\x7b\"suitabilityScore\": 72, ".toList⟩ : Part),
          ⟨"\"relevanceExplanation\": \"ok\"\x7d".toList⟩].map Part.text) ∧
    ([(⟨"\x7b\"suitabilityScore\": 72, ".toList⟩ : Part),
      ⟨"\"relevanceExplanation\": \"ok\"\x7d".toList⟩] = [] →
      rawTextOf
        ⟨some [⟨some ⟨some [⟨"\x7b\"suitabilityScore\": 72, ".toList⟩,
          ⟨"\"relevanceExplanation\": \"ok\"\x7d".toList⟩]⟩⟩]⟩ = []) ∧
    (∀ cs2 : List Candidate,
      rawTextOf ⟨some (⟨some ⟨none⟩⟩ :: cs2)⟩ = []) ∧
    (∀ cs2 : List Candidate, rawTextOf ⟨some (⟨none⟩ :: cs2)⟩ = []) ∧
    rawTextOf ⟨some []⟩ = [] ∧ rawTextOf ⟨none⟩ = [] :=
  rawText_assembly _ _ [] _ _ rfl rfl rfl

/-- C3: whenever the field checks pass and the run fails, whether
because the upstream call returned a non-ok status (with any status and
any raw error text) or because the raw text was empty or extraction
failed, the /analyze handler returns exactly the fixed body with the
error field AI analysis failed at status 500, and the
/analyze-contextual handler returns exactly the fixed degraded shape
with suitabilityScore 0, the localized failure message, and two empty
arrays at status 500; neither body depends on the upstream error text,
so raw upstream error text is never included in a response. -/
theorem failure_responses_fixed (b : AnalyzeBody) (cb : ContextualBody)
    (up up2 : UpstreamResult)
    (hb : falsy b.imageBase64 = false)
    (hc : (falsy cb.imageBase64 || falsy cb.context) = false)
    (h1 : upstreamOrExtractionFailure up)
    (h2 : upstreamOrExtractionFailure up2) :
    handleAnalyze (some b) true up =
      ⟨500, some (.obj [("error".toList,
        .str ("AI analysis failed".toList))]), corsHeaders⟩ ∧
    handleContextual (some cb) up2 =
      ⟨500, some (.obj
        [("suitabilityScore".toList, .num ("0".toList)),
         ("relevanceExplanation".toList,
          .str ("Terjadi kegagalan analisis kontekstual.".toList)),
         ("actionableAdvice".toList, .arr []),
         ("specificRisks".toList, .arr [])]), corsHeaders⟩ := by
  constructor
  · show handleAnalyze (some b) true up = analyzeFallback
    cases up with
    | httpError st et => simp [handleAnalyze, hb]
    | success d =>
      simp only [upstreamOrExtractionFailure] at h1
      by_cases he : rawTextOf d = []
      · simp [handleAnalyze, hb, he]
      · rcases h1 with he2 | hfail
        · exact absurd he2 he
        · cases hx : extract (rawTextOf d) with
          | ok v => exact absurd hx (hfail v)
          | noJsonFound => simp [handleAnalyze, hb, he, hx]
          | parseError => simp [handleAnalyze, hb, he, hx]
  · show handleContextual (some cb) up2 = contextualFallback
    cases up2 with
    | httpError st et => simp [handleContextual, hc]
    | success d =>
      simp only [upstreamOrExtractionFailure] at h2
      by_cases he : rawTextOf d = []
      · simp [handleContextual, hc, he]
      · rcases h2 with he2 | hfail
        · exact absurd he2 he
        · cases hx : extract (rawTextOf d) with
          | ok v => exact absurd hx (hfail v)
          | noJsonFound => simp [handleContextual, hc, he, hx]
          | parseError => simp [handleContextual, hc, he, hx]

/-- C3 witness: the theorem applied to concrete failing runs — an
upstream HTTP 503 with secret error text for /analyze, and an upstream
success whose raw text contains no JSON for /analyze-contextual. -/
theorem failure_responses_fixed_witness :
    handleAnalyze (some ⟨some "img", none⟩) true
        (.httpError 503 ("secret upstream detail".toList)) =
      ⟨500, some (.obj [("error".toList,
        .str ("AI analysis failed".toList))]), corsHeaders⟩ ∧
    handleContextual (some ⟨some "img", some "hiring", none⟩)
        (.success ⟨some [⟨some ⟨some [⟨"no json here".toList⟩]⟩⟩]⟩) =
      ⟨500, some (.obj
        [("suitabilityScore".toList, .num ("0".toList)),
         ("relevanceExplanation".toList,
          .str ("Terjadi kegagalan analisis kontekstual.".toList)),
         ("actionableAdvice".toList, .arr []),
         ("specificRisks".toList, .arr [])]), corsHeaders⟩ :=
  failure_responses_fixed _ _ _ _ rfl rfl trivial
    (Or.inr (fun v h => by
      have e : extract (rawTextOf
          ⟨some [⟨some ⟨some [⟨"no json here".toList⟩]⟩⟩]⟩) =
          ExtractResult.noJsonFound := rfl
      rw [e] at h
      exact ExtractResult.noConfusion h))

/-- C9: every response the worker produces — CORS preflight, health
check, success responses, 400 and 500 error responses, and the 404
fallback — carries the fixed header set of corsHeaders: Content-Type
application/json plus the three Access-Control-Allow headers. -/
theorem responses_carry_cors (rc : RequestCase) :
    (workerFetch rc).headers = corsHeaders := by
  cases rc with
  | preflight => rfl
  | health => rfl
  | notFound => rfl
  | analyze b k u =>
    show (handleAnalyze b k u).headers = corsHeaders
    rcases b with _ | b
    · rfl
    · rcases u with ⟨st, et⟩ | d <;>
        simp only [handleAnalyze] <;> (repeat' split) <;> rfl
  | contextual b u =>
    show (handleContextual b u).headers = corsHeaders
    rcases b with _ | b
    · rfl
    · rcases u with ⟨st, et⟩ | d <;>
        simp only [handleContextual] <;> (repeat' split) <;> rfl

/-- C10: a POST body lacking a required field (a falsy imageBase64 for
/analyze; a falsy imageBase64 or context for /analyze-contextual) gets
status 400 with the handler's fixed error body, and the response does
not depend on the upstream result — the branch returns before any
upstream call is made. -/
theorem missing_required_field_400 (ab : AnalyzeBody)
    (cb : ContextualBody) (k : Bool) (u u2 : UpstreamResult)
    (ha : falsy ab.imageBase64 = true)
    (hc : (falsy cb.imageBase64 || falsy cb.context) = true) :
    handleAnalyze (some ab) k u =
      ⟨400, some (.obj [("error".toList,
        .str ("Image is required".toList))]), corsHeaders⟩ ∧
    handleAnalyze (some ab) k u = handleAnalyze (some ab) k u2 ∧
    handleContextual (some cb) u =
      ⟨400, some (.obj [("error".toList,
        .str ("imageBase64 dan context wajib diisi".toList))]),
       corsHeaders⟩ ∧
    handleContextual (some cb) u = handleContextual (some cb) u2 := by
  have e1 : ∀ u3 : UpstreamResult, handleAnalyze (some ab) k u3 =
      ⟨400, some (.obj [("error".toList,
        .str ("Image is required".toList))]), corsHeaders⟩ := by
    intro u3
    simp [handleAnalyze, ha]
  have e2 : ∀ u3 : UpstreamResult, handleContextual (some cb) u3 =
      ⟨400, some (.obj [("error".toList,
        .str ("imageBase64 dan context wajib diisi".toList))]),
       corsHeaders⟩ := by
    intro u3
    simp [handleContextual, hc]
  exact ⟨e1 u, (e1 u).trans (e1 u2).symm, e2 u, (e2 u).trans (e2 u2).symm⟩

/-- C10 witness: the theorem applied to a concrete /analyze body with
imageBase64 absent and a concrete /analyze-contextual body with context
absent, against two different upstream results. -/
theorem missing_required_field_400_witness :
    handleAnalyze (some ⟨none, none⟩) true (.httpError 500 []) =
      ⟨400, some (.obj [("error".toList,
        .str ("Image is required".toList))]), corsHeaders⟩ ∧
    handleAnalyze (some ⟨none, none⟩) true (.httpError 500 []) =
      handleAnalyze (some ⟨none, none⟩) true (.success ⟨none⟩) ∧
    handleContextual (some ⟨some "img", none, none⟩) (.httpError 500 []) =
      ⟨400, some (.obj [("error".toList,
        .str ("imageBase64 dan context wajib diisi".toList))]),
       corsHeaders⟩ ∧
    handleContextual (some ⟨some "img", none, none⟩) (.httpError 500 []) =
      handleContextual (some ⟨some "img", none, none⟩) (.success ⟨none⟩) :=
  missing_required_field_400 _ _ _ _ _ rfl rfl

end Grafotest
